import Mathlib

set_option maxRecDepth 10000

/-!
Shallow embedding of `src/Configurations.ts`, the configuration resolution and
migration engine of the test-adapter extension, together with proofs about its
migration, fallback, normalization and template-resolution behaviour.

JavaScript values read from the configuration store are modelled by `JVal`;
JavaScript `undefined` is modelled as `Option.none` at every use site.
Asynchronous best-effort writes are modelled as immediately applied state
updates (the spec's abstract, eventually consistent view of the store).
-/

/-- A JSON-like JavaScript value as stored in the configuration store. -/
inductive JVal where
  | null
  | bool (b : Bool)
  | num (n : Int)
  | str (s : String)
  | arr (elems : List JVal)
  | obj (fields : List (String × JVal))

/-- JavaScript `typeof`; note that `typeof null` and `typeof` of an array are both `"object"`. -/
def jTypeof : JVal → String
  | .null => "object"
  | .bool _ => "boolean"
  | .num _ => "number"
  | .str _ => "string"
  | .arr _ => "object"
  | .obj _ => "object"

/-- Is this value JavaScript `null`? (models a `=== null` test). -/
def isNullVal : JVal → Bool
  | .null => true
  | _ => false

/-- Is this value a JavaScript string? (models a `typeof v === "string"` test). -/
def isStringVal : JVal → Bool
  | .str _ => true
  | _ => false

/-- JavaScript truthiness of a value. -/
def jTruthy : JVal → Bool
  | .null => false
  | .bool b => b
  | .num n => decide (n ≠ 0)
  | .str s => decide (s ≠ "")
  | .arr _ => true
  | .obj _ => true

/-- Truthiness of a possibly-`undefined` value. -/
def jTruthyOpt : Option JVal → Bool
  | some v => jTruthy v
  | none => false

/-- First binding of a key in an association list of object fields. -/
def lookupField : List (String × JVal) → String → Option JVal
  | [], _ => none
  | p :: rest, k => if p.1 = k then some p.2 else lookupField rest k

/-- JavaScript property access `v[k]`: a field of an object, `undefined` otherwise.
Access on `null` throws in JavaScript; call sites that can receive `null`
test for it explicitly before using this function. -/
def jGetField : JVal → String → Option JVal
  | .obj fs, k => lookupField fs k
  | _, _ => none

/-- Models a strict equality test `v === "lit"` against a string literal. -/
def strictEqStr (v : JVal) (lit : String) : Bool :=
  match v with
  | .str s => s == lit
  | _ => false

/-! ### The scoped settings store

A value of a single configuration key as seen by `inspect`: one optional
value per override scope (Global, Workspace, WorkspaceFolder). -/

/-- Result of `WorkspaceConfiguration.inspect` for one key. -/
structure Scoped (α : Type) where
  globalValue : Option α
  workspaceValue : Option α
  workspaceFolderValue : Option α

/-- The effective value of a key: the most specific defined scope wins. -/
def effective (s : Scoped JVal) : Option JVal :=
  s.workspaceFolderValue <|> s.workspaceValue <|> s.globalValue

/-- Models `Configurations._isDefinedConfig`: some scope holds a defined value. -/
def isDefinedConfig (s : Scoped JVal) : Bool :=
  s.globalValue.isSome || s.workspaceValue.isSome || s.workspaceFolderValue.isSome

/-- The new namespaced setting keys that have a legacy counterpart
(the `MigratableConfig` union type of the source). -/
inductive MigratableConfig where
  | testExecutables
  | testWorkingDirectory
  | testRandomGeneratorSeed
  | testRuntimeLimit
  | testParallelExecutionLimit
  | discoveryGracePeriodForMissing
  | discoveryRetireDebounceLimit
  | discoveryRuntimeLimit
  | discoveryTestListCaching
  | debugConfigTemplate
  | debugBreakOnFailure
  | debugNoThrow
  | logLogpanel
  | logLogfile
  | logLogSentry
  | logUserId
  | gtestTreatGmockWarningAs
  | gtestGmockVerbose

/-- The legacy flat setting keys (the `OldConfig` union type of the source). -/
inductive OldConfig where
  | executables
  | defaultCwd
  | defaultRngSeed
  | defaultWatchTimeoutSec
  | retireDebounceTimeMilisec
  | defaultRunningTimeoutSec
  | defaultExecParsingTimeoutSec
  | workerMaxNumber
  | debugConfigTemplate
  | debugBreakOnFailure
  | defaultNoThrow
  | logpanel
  | logfile
  | logSentry
  | userId
  | enableTestListCaching
  | googletestTreatGmockWarningAs
  | googletestGmockVerbose

/-- The static migration table `MigrationV1V2NamePairs` of the source. -/
def MigrationV1V2NamePairs : MigratableConfig → OldConfig
  | .testExecutables => .executables
  | .testWorkingDirectory => .defaultCwd
  | .testRandomGeneratorSeed => .defaultRngSeed
  | .testRuntimeLimit => .defaultRunningTimeoutSec
  | .testParallelExecutionLimit => .workerMaxNumber
  | .discoveryGracePeriodForMissing => .defaultWatchTimeoutSec
  | .discoveryRetireDebounceLimit => .retireDebounceTimeMilisec
  | .discoveryRuntimeLimit => .defaultExecParsingTimeoutSec
  | .discoveryTestListCaching => .enableTestListCaching
  | .debugConfigTemplate => .debugConfigTemplate
  | .debugBreakOnFailure => .debugBreakOnFailure
  | .debugNoThrow => .defaultNoThrow
  | .logLogpanel => .logpanel
  | .logLogfile => .logfile
  | .logLogSentry => .logSentry
  | .logUserId => .userId
  | .gtestTreatGmockWarningAs => .googletestTreatGmockWarningAs
  | .gtestGmockVerbose => .googletestGmockVerbose

/-- The store state relevant to one migratable key `k`: the scoped values of
its legacy key `MigrationV1V2NamePairs k` in the old configuration section,
and the scoped values of `k` itself in the new configuration section. -/
structure KeyState where
  oldK : Scoped JVal
  newK : Scoped JVal

/-- Models `Configurations._getNewOrOldAndMigrate`.  If the legacy key is
defined at some scope, each scope's legacy value (including `undefined` ones)
is written to the new key at the same scope, the effective legacy value is
read, the legacy key is cleared at all three scopes, and that effective legacy
value is returned.  Otherwise the effective value of the new key is returned
and the store is untouched.  The asynchronous best-effort writes are modelled
as an immediate state change. -/
def getNewOrOldAndMigrate (k : MigratableConfig) (s : KeyState) : Option JVal × KeyState :=
  let _oldName := MigrationV1V2NamePairs k
  if isDefinedConfig s.oldK then
    (effective s.oldK, { oldK := ⟨none, none, none⟩, newK := s.oldK })
  else
    (effective s.newK, s)

/-- Models `Configurations._getNewOrOldOrDefAndMigrate`: resolve, then fall
back to a default when the resolved value is `undefined`. -/
def getNewOrOldOrDefAndMigrate (k : MigratableConfig) (s : KeyState) (defaultValue : JVal) :
    JVal × KeyState :=
  let r := getNewOrOldAndMigrate k s
  ((r.1).getD defaultValue, r.2)

/-- Unfolding lemma: resolution when the legacy key is defined. -/
theorem getNewOrOldAndMigrate_defined (k : MigratableConfig) (s : KeyState)
    (hdef : isDefinedConfig s.oldK = true) :
    getNewOrOldAndMigrate k s = (effective s.oldK, ⟨⟨none, none, none⟩, s.oldK⟩) := by
  simp only [getNewOrOldAndMigrate]
  rw [if_pos hdef]

/-- Unfolding lemma: resolution when the legacy key is undefined everywhere. -/
theorem getNewOrOldAndMigrate_undefined (k : MigratableConfig) (s : KeyState)
    (hdef : isDefinedConfig s.oldK = false) :
    getNewOrOldAndMigrate k s = (effective s.newK, s) := by
  simp only [getNewOrOldAndMigrate]
  rw [if_neg]
  simp [hdef]

/-- C2: migration is scope-preserving.  For every migratable key whose legacy
key is defined at at least one scope, resolution writes the legacy key's
globalValue to the new key at Global scope, its workspaceValue at Workspace
scope, and its workspaceFolderValue at WorkspaceFolder scope (writing
`undefined` to scopes where the legacy value was undefined), and then clears
the legacy key at all three scopes; a value set only at WorkspaceFolder scope
ends up only at WorkspaceFolder scope of the new key, with Global and
Workspace remaining undefined. -/
theorem c2_scope_preserving (k : MigratableConfig) (s : KeyState)
    (hdef : isDefinedConfig s.oldK = true) :
    (getNewOrOldAndMigrate k s).2.newK.globalValue = s.oldK.globalValue ∧
    (getNewOrOldAndMigrate k s).2.newK.workspaceValue = s.oldK.workspaceValue ∧
    (getNewOrOldAndMigrate k s).2.newK.workspaceFolderValue = s.oldK.workspaceFolderValue ∧
    (getNewOrOldAndMigrate k s).2.oldK = (⟨none, none, none⟩ : Scoped JVal) ∧
    (∀ v : JVal, s.oldK = ⟨none, none, some v⟩ →
      (getNewOrOldAndMigrate k s).2.newK = (⟨none, none, some v⟩ : Scoped JVal)) := by
  rw [getNewOrOldAndMigrate_defined k s hdef]
  exact ⟨rfl, rfl, rfl, rfl, fun v hv => by rw [hv]⟩

/-- Witness for `c2_scope_preserving`: a value set only at WorkspaceFolder
scope of the legacy key migrates to exactly the WorkspaceFolder scope of the
new key. -/
theorem c2_scope_preserving_witness :
    isDefinedConfig (⟨none, none, some (.str "/x")⟩ : Scoped JVal) = true ∧
    ((getNewOrOldAndMigrate .testWorkingDirectory
        ⟨⟨none, none, some (.str "/x")⟩, ⟨some (.str "stale"), none, none⟩⟩).2.newK =
      (⟨none, none, some (.str "/x")⟩ : Scoped JVal)) :=
  ⟨rfl,
    (c2_scope_preserving .testWorkingDirectory
      ⟨⟨none, none, some (.str "/x")⟩, ⟨some (.str "stale"), none, none⟩⟩ rfl).2.2.2.2
      (.str "/x") rfl⟩

/-- C3: migration is idempotent.  For a key whose legacy value is defined,
resolving twice yields the same value both times; after the first call the
legacy key is undefined at all three scopes, and the second call reads only
the new key and performs no writes (the state is unchanged). -/
theorem c3_idempotent (k : MigratableConfig) (s : KeyState)
    (hdef : isDefinedConfig s.oldK = true) :
    (getNewOrOldAndMigrate k (getNewOrOldAndMigrate k s).2).1 = (getNewOrOldAndMigrate k s).1 ∧
    (getNewOrOldAndMigrate k s).2.oldK = (⟨none, none, none⟩ : Scoped JVal) ∧
    (getNewOrOldAndMigrate k (getNewOrOldAndMigrate k s).2).2 = (getNewOrOldAndMigrate k s).2 := by
  rw [getNewOrOldAndMigrate_defined k s hdef,
    getNewOrOldAndMigrate_undefined k ⟨⟨none, none, none⟩, s.oldK⟩ rfl]
  exact ⟨rfl, rfl, rfl⟩

/-- Witness for `c3_idempotent` at a concrete store state. -/
theorem c3_idempotent_witness :
    isDefinedConfig (⟨some (.num 3), none, none⟩ : Scoped JVal) = true ∧
    ((getNewOrOldAndMigrate .testRuntimeLimit
        (getNewOrOldAndMigrate .testRuntimeLimit
          ⟨⟨some (.num 3), none, none⟩, ⟨none, some (.num 9), none⟩⟩).2).1 =
      (getNewOrOldAndMigrate .testRuntimeLimit
        ⟨⟨some (.num 3), none, none⟩, ⟨none, some (.num 9), none⟩⟩).1) :=
  ⟨rfl,
    (c3_idempotent .testRuntimeLimit
      ⟨⟨some (.num 3), none, none⟩, ⟨none, some (.num 9), none⟩⟩ rfl).1⟩

/-! ### Migration of the legacy `executables` setting

The `migrate` closure inside `Configurations.getExecutables` handles the
composite legacy shape `null | string | string[] | object | (object|string)[]`
independently per scope. -/

/-- The arguments of the `update` closure inside `migrate`: the value written
to the new simple key `test.executable` and the value written to the new
array key `test.executables` (at the scope being migrated; `none` models an
`undefined` write, which clears the key at that scope). -/
structure ExecUpdate where
  simpleVal : Option JVal
  arrVal : Option (List JVal)

/-- Outcome of the `migrate` closure for one scope's legacy value. -/
inductive MigrateResult where
  | noop
  | updated (u : ExecUpdate)
  | loggedError
  | crash (msg : String)

/-- Normalization of a legacy `executables` array, from the source loop:
a string element becomes `{pattern: element}`, an element of JavaScript type
"object" (which includes `null` and arrays) passes through unchanged, and any
other element is reported and skipped. -/
def normalizeLegacyArray : List JVal → List JVal
  | [] => []
  | v :: rest =>
    match v with
    | .str s => .obj [("pattern", .str s)] :: normalizeLegacyArray rest
    | other =>
      if jTypeof other = "object" then other :: normalizeLegacyArray rest
      else normalizeLegacyArray rest

/-- The number of keys `Object.keys` reports for a value: the index keys for
an array, the field names for an object. -/
def jsObjectKeysLength : JVal → Nat
  | .obj fs => fs.length
  | .arr xs => xs.length
  | _ => 0

/-- Models the `migrate` closure of `Configurations.getExecutables` applied to
one scope's legacy `executables` value (`none` = `undefined`).  Note that the
singleton-collapse condition of the source tests
`newVals.length === 1 && Object.keys(newVals).length === 1 && newVals[0].pattern !== undefined`,
where `Object.keys` is applied to the array `newVals` itself, so for a
one-element array the key-count test is always satisfied and only the presence
of a `pattern` property on the lone element matters.  Reading `.pattern` on a
lone `null` element would throw a TypeError, modelled by `.crash`. -/
def migrateLegacyExec : Option JVal → MigrateResult
  | none => .noop
  | some oldVal =>
    match oldVal with
    | .null => .updated ⟨some (.str ""), none⟩
    | .str s => .updated ⟨some (.str s), none⟩
    | .arr xs =>
      let newVals := normalizeLegacyArray xs
      match newVals with
      | [] => .updated ⟨some (.str ""), none⟩
      | v :: rest =>
        if (v :: rest).length = 1 ∧ jsObjectKeysLength (.arr (v :: rest)) = 1 then
          match v with
          | .null => .crash "TypeError: cannot read properties of null"
          | w =>
            match jGetField w "pattern" with
            | some p => .updated ⟨some p, none⟩
            | none => .updated ⟨none, some (v :: rest)⟩
        else .updated ⟨none, some (v :: rest)⟩
    | _ => .loggedError

/-- The outcome of the legacy-`executables` migration at each of the three
scopes (`migrate` is invoked once per scope). -/
structure ExecMigrationOutcome where
  globalOutcome : MigrateResult
  workspaceOutcome : MigrateResult
  workspaceFolderOutcome : MigrateResult

/-- The migration phase of `Configurations.getExecutables`: when the legacy
`executables` key is defined (per `inspect`), the `migrate` closure runs on
each scope's value independently. -/
def executablesMigration (oldVals : Option (Scoped JVal)) : ExecMigrationOutcome :=
  match oldVals with
  | some ov =>
    if isDefinedConfig ov then
      ⟨migrateLegacyExec ov.globalValue,
        migrateLegacyExec ov.workspaceValue,
        migrateLegacyExec ov.workspaceFolderValue⟩
    else ⟨.noop, .noop, .noop⟩
  | none => ⟨.noop, .noop, .noop⟩

/-- C1 counterexample: a singleton legacy array whose lone object carries a
`pattern` field AND another field (`name`) still collapses to the simple
pattern key (dropping `name`), because the source checks `Object.keys` of the
array, not of the object.  The claim predicted that this input would set the
new array key to the full normalized array instead. -/
theorem c1_collapse_counterexample :
    migrateLegacyExec (some (.arr [.obj [("pattern", .str "p"), ("name", .str "n")]])) =
      .updated ⟨some (.str "p"), none⟩ ∧
    migrateLegacyExec (some (.arr [.obj [("pattern", .str "p"), ("name", .str "n")]])) ≠
      .updated ⟨none, some [.obj [("pattern", .str "p"), ("name", .str "n")]]⟩ ∧
    jsObjectKeysLength (.obj [("pattern", .str "p"), ("name", .str "n")]) = 2 := by
  refine ⟨rfl, ?_, rfl⟩
  intro h
  have h2 := congrArg
    (fun r => match r with | MigrateResult.updated u => u.simpleVal | _ => none) h
  exact Option.noConfusion h2

/-- C1 (amended): legacy `executables` array migration, per scope.  After
normalizing each element (a string element becomes `{pattern: element}`, an
element of JavaScript type "object" passes through, other elements are
reported and skipped), an empty normalized array sets the new simple-pattern
key `test.executable` to `''`; a singleton normalized array whose lone
element has a defined `pattern` property collapses to the simple-pattern key
set to that property's value, REGARDLESS of the element's other fields (the
source tests `Object.keys` of the array, which has exactly one key for a
singleton); otherwise the new array key `test.executables` is set to the full
normalized array.  The same `migrate` closure is applied to each of the three
scopes' legacy values. -/
theorem c1_array_migration (ov : Scoped JVal)
    (hdef : isDefinedConfig ov = true) :
    executablesMigration (some ov) =
      ⟨migrateLegacyExec ov.globalValue, migrateLegacyExec ov.workspaceValue,
        migrateLegacyExec ov.workspaceFolderValue⟩ ∧
    (∀ s rest, normalizeLegacyArray (.str s :: rest) =
      .obj [("pattern", .str s)] :: normalizeLegacyArray rest) ∧
    (∀ v rest, jTypeof v = "object" →
      normalizeLegacyArray (v :: rest) = v :: normalizeLegacyArray rest) ∧
    (∀ v rest, jTypeof v ≠ "object" → isStringVal v = false →
      normalizeLegacyArray (v :: rest) = normalizeLegacyArray rest) ∧
    (∀ xs, normalizeLegacyArray xs = [] →
      migrateLegacyExec (some (.arr xs)) = .updated ⟨some (.str ""), none⟩) ∧
    (∀ xs v p, normalizeLegacyArray xs = [v] → isNullVal v = false →
      jGetField v "pattern" = some p →
      migrateLegacyExec (some (.arr xs)) = .updated ⟨some p, none⟩) ∧
    (∀ xs v, normalizeLegacyArray xs = [v] → isNullVal v = false →
      jGetField v "pattern" = none →
      migrateLegacyExec (some (.arr xs)) = .updated ⟨none, some [v]⟩) ∧
    (∀ xs, 2 ≤ (normalizeLegacyArray xs).length →
      migrateLegacyExec (some (.arr xs)) = .updated ⟨none, some (normalizeLegacyArray xs)⟩) := by
  refine ⟨by simp [executablesMigration, hdef], fun s rest => rfl, ?_, ?_, ?_, ?_, ?_, ?_⟩
  · intro v rest hobj
    cases v <;> simp_all [normalizeLegacyArray, jTypeof]
  · intro v rest hobj hstr
    cases v <;> simp_all [normalizeLegacyArray, jTypeof, isStringVal]
  · intro xs hnil
    simp [migrateLegacyExec, hnil]
  · intro xs v p hsingle hnn hpat
    simp only [migrateLegacyExec, hsingle]
    rw [if_pos ⟨rfl, rfl⟩]
    cases v with
    | null => exact absurd hnn (by simp [isNullVal])
    | bool b => simp_all [jGetField]
    | num n => simp_all [jGetField]
    | str s => simp_all [jGetField]
    | arr es => simp_all [jGetField]
    | obj fs => simp [jGetField] at hpat ⊢; simp [hpat]
  · intro xs v hsingle hnn hpat
    simp only [migrateLegacyExec, hsingle]
    rw [if_pos ⟨rfl, rfl⟩]
    cases v with
    | null => exact absurd hnn (by simp [isNullVal])
    | bool b => simp_all [jGetField]
    | num n => simp_all [jGetField]
    | str s => simp_all [jGetField]
    | arr es => simp_all [jGetField]
    | obj fs => simp [jGetField] at hpat ⊢; simp [hpat]
  · intro xs hlen
    cases hnv : normalizeLegacyArray xs with
    | nil => rw [hnv] at hlen; simp at hlen
    | cons v rest =>
      rw [hnv] at hlen
      have hne : ¬ ((v :: rest).length = 1 ∧ jsObjectKeysLength (.arr (v :: rest)) = 1) := by
        intro hc
        have h1 := hc.1
        simp only [List.length_cons] at h1 hlen
        omega
      simp only [migrateLegacyExec, hnv]
      rw [if_neg hne]

/-- Witness for `c1_array_migration`: a two-element legacy string array is
normalized to two pattern objects and written to the new array key. -/
theorem c1_array_migration_witness :
    isDefinedConfig (⟨none, none, some (.arr [.str "a", .str "b"])⟩ : Scoped JVal) = true ∧
    2 ≤ (normalizeLegacyArray [.str "a", .str "b"]).length ∧
    migrateLegacyExec (some (.arr [.str "a", .str "b"])) =
      .updated ⟨none, some (normalizeLegacyArray [.str "a", .str "b"])⟩ :=
  ⟨rfl, by decide,
    (c1_array_migration ⟨none, none, some (.arr [.str "a", .str "b"])⟩ rfl).2.2.2.2.2.2.2
      [.str "a", .str "b"] (by decide)⟩

/-! ### Expansion of `test.executables` / `test.executable`

The normalized executable descriptors produced by `Configurations.getExecutables`. -/

/-- Per-framework override block (`ExecutableConfigFrameworkSpecific`). -/
structure ExecutableConfigFrameworkSpecific where
  helpRegex : Option String := none
  prependTestRunningArgs : Option (List String) := none
  prependTestListingArgs : Option (List String) := none
  ignoreTestEnumerationStdErr : Option JVal := none
  testGrouping : Option JVal := none

/-- The normalized executable descriptor (the `ExecutableConfig` constructor
arguments, minus the runtime collaborators `shared` and `variableToValue`). -/
structure ExecutableConfig where
  pattern : String
  name : Option String
  description : Option String
  cwd : Option String
  env : Option JVal
  dependsOn : List String
  parallelizationLimit : Int
  defaultCwd : String
  catch2 : ExecutableConfigFrameworkSpecific
  gtest : ExecutableConfigFrameworkSpecific
  doctest : ExecutableConfigFrameworkSpecific

/-- Models `createExecutableConfigFromPattern`. -/
def createExecutableConfigFromPattern (defaultCwd pattern : String) : ExecutableConfig :=
  { pattern := pattern, name := none, description := none, cwd := none, env := none,
    dependsOn := [], parallelizationLimit := 1, defaultCwd := defaultCwd,
    catch2 := {}, gtest := {}, doctest := {} }

/-- The default discovery pattern used when both executable settings are unset. -/
def defaultExecPattern : String :=
  "\x7bbuild,Build,BUILD,out,Out,OUT\x7d/**/*\x7btest,Test,TEST\x7d*"

/-- A field that is kept only when it is a string (`typeof f === "string"`). -/
def asOptionalString : Option JVal → Option String
  | some (.str s) => some s
  | _ => none

/-- A field kept only when it is an array whose elements are all strings. -/
def stringArrayField : Option JVal → Option (List String)
  | some (.arr xs) =>
    if xs.all isStringVal then
      some (xs.filterMap (fun v => match v with | .str s => some s | _ => none))
    else none
  | _ => none

/-- A field kept only when truthy (models `if (x) r.f = x`). -/
def truthyField : Option JVal → Option JVal
  | some w => if jTruthy w then some w else none
  | none => none

/-- Models the `framework` closure of `createExecutableConfigFromObj`:
field-by-field validation of a per-framework override block, with the
top-level `testGrouping` as fallback.  A `null` block throws a TypeError
(`typeof null === "object"` passes the guard and then `null.helpRegex` throws). -/
def framework (testGrouping : Option JVal) : Option JVal →
    Except String ExecutableConfigFrameworkSpecific
  | some .null => .error "TypeError: cannot read properties of null"
  | some o =>
    if jTypeof o = "object" then
      .ok { helpRegex := asOptionalString (jGetField o "helpRegex"),
            prependTestRunningArgs := stringArrayField (jGetField o "prependTestRunningArgs"),
            prependTestListingArgs := stringArrayField (jGetField o "prependTestListingArgs"),
            ignoreTestEnumerationStdErr := truthyField (jGetField o "ignoreTestEnumerationStdErr"),
            testGrouping :=
              if jTruthyOpt (jGetField o "testGrouping") then jGetField o "testGrouping"
              else testGrouping }
    else .ok {}
  | none => .ok {}

/-- Models `createExecutableConfigFromObj`: mandatory string `pattern` (else
the shape error "pattern property is required."), optional fields coerced with
type checks (wrong-typed `name`/`description`/`cwd` are dropped; `env` is kept
whenever `typeof env === "object"`, which accepts `null` and arrays;
`dependsOn` keeps only string entries; a non-number `parallelizationLimit`
defaults to 1). -/
def createExecutableConfigFromObj (defaultCwd : String) (o : JVal) :
    Except String ExecutableConfig :=
  match o with
  | .null => .error "TypeError: cannot read properties of null"
  | _ =>
    let name := asOptionalString (jGetField o "name")
    let description := asOptionalString (jGetField o "description")
    match jGetField o "pattern" with
    | some (.str pattern) =>
      let cwd := asOptionalString (jGetField o "cwd")
      let env := match jGetField o "env" with
        | some v => if jTypeof v = "object" then some v else none
        | none => none
      let dependsOn := match jGetField o "dependsOn" with
        | some (.arr xs) => xs.filterMap (fun v => match v with | .str s => some s | _ => none)
        | _ => []
      let parallelizationLimit : Int := match jGetField o "parallelizationLimit" with
        | some (.num n) => n
        | _ => 1
      let testGrouping := truthyField (jGetField o "testGrouping")
      match framework testGrouping (jGetField o "catch2") with
      | .error e => .error e
      | .ok catch2 =>
        match framework testGrouping (jGetField o "gtest") with
        | .error e => .error e
        | .ok gtest =>
          match framework testGrouping (jGetField o "doctest") with
          | .error e => .error e
          | .ok doctest =>
            .ok { pattern := pattern, name := name, description := description, cwd := cwd,
                  env := env, dependsOn := dependsOn,
                  parallelizationLimit := parallelizationLimit, defaultCwd := defaultCwd,
                  catch2 := catch2, gtest := gtest, doctest := doctest }
    | _ => .error "pattern property is required."

/-- The element loop of `getExecutables`: a string element becomes a
pattern-only config, anything else goes through `createExecutableConfigFromObj`;
the first thrown error aborts the whole expansion. -/
def expandConfigExecs (defaultCwd : String) : List JVal → Except String (List ExecutableConfig)
  | [] => .ok []
  | conf :: rest =>
    match (match conf with
           | .str s => Except.ok (createExecutableConfigFromPattern defaultCwd s)
           | other => createExecutableConfigFromObj defaultCwd other) with
    | .error e => .error e
    | .ok c =>
      match expandConfigExecs defaultCwd rest with
      | .error e => .error e
      | .ok cs => .ok (c :: cs)

/-- Error message for a `test.executable` value that is neither string nor undefined. -/
def execErrorSimple : String :=
  "test.executable could not be recognised. It should be a string. For fine-tuning use test.executables."

/-- Error message for a `test.executables` value that is neither array nor undefined. -/
def execErrorArray : String := "test.executables could not be recognised"

/-- The `test.executable` fallback branch of `getExecutables` (taken when
`test.executables` is undefined or an empty array). -/
def execSimpleFallback (defaultCwd : String) (simpleConfig : Option JVal) :
    Except String (List ExecutableConfig) :=
  match simpleConfig with
  | none => .ok [createExecutableConfigFromPattern defaultCwd defaultExecPattern]
  | some (.str s) =>
    if s.length = 0 then .ok []
    else .ok [createExecutableConfigFromPattern defaultCwd s]
  | some _ => .error execErrorSimple

/-- Models the expansion phase of `Configurations.getExecutables` (after the
legacy migration): `configExecs` is the resolved `test.executables` value and
`simpleConfig` the resolved `test.executable` value. -/
def getExecutablesCore (defaultCwd : String) (configExecs simpleConfig : Option JVal) :
    Except String (List ExecutableConfig) :=
  match configExecs with
  | none => execSimpleFallback defaultCwd simpleConfig
  | some (.arr []) => execSimpleFallback defaultCwd simpleConfig
  | some (.arr xs) => expandConfigExecs defaultCwd xs
  | some _ => .error execErrorArray

/-- Does the object carry a string-typed `pattern` field? -/
def hasStringPattern (o : JVal) : Bool :=
  match jGetField o "pattern" with
  | some (.str _) => true
  | _ => false

/-- C4 counterexample: the source accepts an explicitly empty `pattern`
string (`typeof '' === 'string'`), so `getExecutables` can return a config
whose pattern is the empty string, contradicting the claimed non-emptiness. -/
theorem c4_empty_pattern_counterexample :
    getExecutablesCore "/ws" (some (.arr [.obj [("pattern", .str "")]])) none =
      .ok [{ pattern := "", name := none, description := none, cwd := none, env := none,
             dependsOn := [], parallelizationLimit := 1, defaultCwd := "/ws",
             catch2 := {}, gtest := {}, doctest := {} }] ∧
    ("" : String).length = 0 :=
  ⟨rfl, rfl⟩

/-- C4 (amended): every `ExecutableConfig` returned by `getExecutables` has a
string pattern taken from the configuration, but it may be the empty string;
an executable object in `test.executables` that lacks a string `pattern`
field makes `getExecutables` throw the shape error
"pattern property is required." rather than producing a config with a silent
default pattern. -/
theorem c4_pattern_required (d : String) (fs : List (String × JVal)) (rest : List JVal)
    (sc : Option JVal) (hpat : hasStringPattern (.obj fs) = false) :
    getExecutablesCore d (some (.arr (.obj fs :: rest))) sc =
      .error "pattern property is required." := by
  have hobj : createExecutableConfigFromObj d (.obj fs) =
      .error "pattern property is required." := by
    simp only [createExecutableConfigFromObj]
    simp only [hasStringPattern] at hpat
    cases hp : jGetField (.obj fs) "pattern" with
    | none => rfl
    | some v => cases v <;> simp_all
  show expandConfigExecs d (.obj fs :: rest) = _
  simp only [expandConfigExecs, hobj]

/-- Witness for `c4_pattern_required`: an object with a numeric `pattern`. -/
theorem c4_pattern_required_witness :
    hasStringPattern (.obj [("pattern", .num 3)]) = false ∧
    getExecutablesCore "/ws" (some (.arr [.obj [("pattern", .num 3)]])) none =
      .error "pattern property is required." :=
  ⟨rfl, c4_pattern_required "/ws" [("pattern", .num 3)] [] none rfl⟩

/-- C5: when `test.executables` resolves to undefined or an empty array,
`getExecutables` falls back to `test.executable`: undefined gives exactly one
config with the default glob pattern, the empty string gives the empty list,
a non-empty string gives exactly one config with that pattern, and any other
type throws a configuration error. -/
theorem c5_simple_fallback (d : String) (configExecs simpleConfig : Option JVal)
    (h : configExecs = none ∨ configExecs = some (.arr [])) :
    (simpleConfig = none →
      getExecutablesCore d configExecs simpleConfig =
        .ok [createExecutableConfigFromPattern d defaultExecPattern]) ∧
    (simpleConfig = some (.str "") →
      getExecutablesCore d configExecs simpleConfig = .ok []) ∧
    (∀ s : String, s.length ≠ 0 → simpleConfig = some (.str s) →
      getExecutablesCore d configExecs simpleConfig =
        .ok [createExecutableConfigFromPattern d s]) ∧
    (∀ v : JVal, isStringVal v = false → simpleConfig = some v →
      getExecutablesCore d configExecs simpleConfig = .error execErrorSimple) := by
  rcases h with rfl | rfl <;>
    exact ⟨fun hs => by subst hs; rfl,
      fun hs => by subst hs; rfl,
      fun s hlen hs => by
        subst hs
        show execSimpleFallback d (some (.str s)) = _
        simp only [execSimpleFallback]
        rw [if_neg hlen],
      fun v hv hs => by
        subst hs
        show execSimpleFallback d (some v) = _
        cases v <;> simp_all [execSimpleFallback, isStringVal]⟩

/-- Witness for `c5_simple_fallback`: empty `test.executables` and undefined
`test.executable` give one config with the default glob pattern. -/
theorem c5_simple_fallback_witness :
    ((some (JVal.arr []) : Option JVal) = none ∨
      (some (JVal.arr []) : Option JVal) = some (.arr [])) ∧
    getExecutablesCore "/ws" (some (.arr [])) none =
      .ok [createExecutableConfigFromPattern "/ws" defaultExecPattern] :=
  ⟨Or.inr rfl, (c5_simple_fallback "/ws" (some (.arr [])) none (Or.inr rfl)).1 rfl⟩

/-- C6 counterexample: `parallelizationLimit: 0` is a number, so the source
keeps it as-is; the resulting config violates the claimed `≥ 1` invariant
(the per-executable limit is never clamped). -/
theorem c6_no_clamp_counterexample :
    getExecutablesCore "/ws"
        (some (.arr [.obj [("pattern", .str "p"), ("parallelizationLimit", .num 0)]])) none =
      .ok [{ pattern := "p", name := none, description := none, cwd := none, env := none,
             dependsOn := [], parallelizationLimit := 0, defaultCwd := "/ws",
             catch2 := {}, gtest := {}, doctest := {} }] ∧
    ¬ (1 ≤ (0 : Int)) :=
  ⟨rfl, by decide⟩

/-- C6 (amended): for every executable object, the normalized
`parallelizationLimit` equals the field's value whenever that field is a
number (with no clamping and no integrality check), and defaults to 1 when
the field is absent or not a number. -/
theorem c6_parallelization_limit (d : String) (o : JVal) (c : ExecutableConfig)
    (h : createExecutableConfigFromObj d o = .ok c) :
    c.parallelizationLimit =
      (match jGetField o "parallelizationLimit" with
       | some (.num n) => n
       | _ => 1) := by
  cases o <;> simp only [createExecutableConfigFromObj] at h
  case null => exact Except.noConfusion h
  all_goals
    split at h
    · split at h
      · exact Except.noConfusion h
      · split at h
        · exact Except.noConfusion h
        · split at h
          · exact Except.noConfusion h
          · injection h with h2
            subst h2
            rfl
    · exact Except.noConfusion h

/-- Witness for `c6_parallelization_limit` at a concrete executable object. -/
theorem c6_parallelization_limit_witness :
    createExecutableConfigFromObj "/ws"
        (.obj [("pattern", .str "p"), ("parallelizationLimit", .num 7)]) =
      .ok { pattern := "p", name := none, description := none, cwd := none, env := none,
            dependsOn := [], parallelizationLimit := 7, defaultCwd := "/ws",
            catch2 := {}, gtest := {}, doctest := {} } ∧
    ({ pattern := "p", name := none, description := none, cwd := none, env := none,
       dependsOn := [], parallelizationLimit := 7, defaultCwd := "/ws",
       catch2 := {}, gtest := {}, doctest := {} } : ExecutableConfig).parallelizationLimit =
      (match jGetField (.obj [("pattern", .str "p"), ("parallelizationLimit", .num 7)])
          "parallelizationLimit" with
       | some (.num n) => n
       | _ => 1) :=
  ⟨rfl,
    c6_parallelization_limit "/ws"
      (.obj [("pattern", .str "p"), ("parallelizationLimit", .num 7)]) _ rfl⟩

/-- C10: the `env` field is validated only with a JavaScript
`typeof === "object"` check, which accepts `null` and arrays, so those values
are propagated into the resulting config's `env`, unlike wrong-typed
`name`/`description`/`cwd` fields, which are dropped. -/
theorem c10_env_propagation :
    getExecutablesCore "/ws" (some (.arr [.obj [("pattern", .str "p"), ("env", .null)]])) none =
      .ok [{ pattern := "p", name := none, description := none, cwd := none,
             env := some .null, dependsOn := [], parallelizationLimit := 1,
             defaultCwd := "/ws", catch2 := {}, gtest := {}, doctest := {} }] ∧
    getExecutablesCore "/ws" (some (.arr [.obj [("pattern", .str "p"), ("env", .arr [])]])) none =
      .ok [{ pattern := "p", name := none, description := none, cwd := none,
             env := some (.arr []), dependsOn := [], parallelizationLimit := 1,
             defaultCwd := "/ws", catch2 := {}, gtest := {}, doctest := {} }] ∧
    getExecutablesCore "/ws"
        (some (.arr [.obj [("pattern", .str "p"), ("name", .null), ("description", .null),
          ("cwd", .null)]])) none =
      .ok [{ pattern := "p", name := none, description := none, cwd := none, env := none,
             dependsOn := [], parallelizationLimit := 1, defaultCwd := "/ws",
             catch2 := {}, gtest := {}, doctest := {} }] :=
  ⟨rfl, rfl, rfl⟩

/-! ### Numeric accessors: parallel-execution limit and random-generator seed -/

/-- A JavaScript number restricted to the integer values arising here, plus
`NaN` (the result of coercing a non-numeric value).  Crucially,
`typeof NaN === "number"` in JavaScript. -/
inductive JNum where
  | nan
  | int (n : Int)
deriving DecidableEq

/-- JavaScript `typeof` of a number: always "number", including for `NaN`. -/
def jnTypeof (_ : JNum) : String := "number"

/-- JavaScript whitespace for the purposes of `Number()` string trimming. -/
def isJsSpace (c : Char) : Bool :=
  c = ' ' || c = '\t' || c = '\n' || c = '\r'

/-- Value of a list of decimal digit characters. -/
def digitsToNat (l : List Char) : Nat :=
  l.foldl (fun a c => a * 10 + (c.toNat - 48)) 0

/-- Models JavaScript `Number()` applied to a string, restricted to
optional-sign decimal integer literals (the forms the configuration claims
exercise); every other non-empty non-numeric string yields `NaN`, and the
empty/whitespace-only string yields 0, as in JavaScript. -/
def parseJsNumber (s : String) : JNum :=
  let t := ((s.data.dropWhile isJsSpace).reverse.dropWhile isJsSpace).reverse
  match t with
  | [] => .int 0
  | c :: rest =>
    if c = '-' then
      if rest ≠ [] ∧ rest.all Char.isDigit then .int (-(digitsToNat rest : Int)) else .nan
    else if c = '+' then
      if rest ≠ [] ∧ rest.all Char.isDigit then .int (digitsToNat rest) else .nan
    else if (c :: rest).all Char.isDigit then .int (digitsToNat (c :: rest)) else .nan

/-- Models JavaScript `ToNumber` coercion of a configuration value.
Objects and arrays are coerced through `ToPrimitive` in JavaScript; they are
modelled as `NaN` here (no theorem below depends on coercing them). -/
def jsToNumber : JVal → JNum
  | .null => .int 0
  | .bool b => .int (if b then 1 else 0)
  | .num n => .int n
  | .str s => parseJsNumber s
  | .arr _ => .nan
  | .obj _ => .nan

/-- JavaScript `Math.max`: `NaN` on either side gives `NaN`. -/
def jnMax (a b : JNum) : JNum :=
  match a, b with
  | .int x, .int y => .int (max x y)
  | _, _ => .nan

/-- Models `Configurations.getParallelExecutionLimit` on the resolved
`test.parallelExecutionLimit` value (`none` = `undefined`, which takes the
default 1).  The source computes `Math.max(1, value)` first, which coerces
the value to a number (possibly `NaN`), and only then tests
`typeof res != 'number'` — a test that can never succeed, since `Math.max`
always returns a JavaScript number (`NaN` included). -/
def getParallelExecutionLimit (raw : Option JVal) : JNum :=
  let res := jnMax (.int 1) (jsToNumber (raw.getD (JVal.num 1)))
  if jnTypeof res ≠ "number" then .int 1 else res

/-- C7: evaluation of `getParallelExecutionLimit` at the claim's inputs.
A resolved raw value of 0 yields 1 and a raw value of 4 yields 4, as claimed;
but a non-numeric resolved value such as the string "abc" yields `NaN`
rather than falling back to 1: `Math.max(1, 'abc')` is `NaN`, and the
`typeof res != 'number'` fallback guard in the source is dead code because
`typeof NaN === 'number'`. -/
theorem c7_parallel_limit_eval :
    getParallelExecutionLimit (some (.num 0)) = .int 1 ∧
    getParallelExecutionLimit (some (.num 4)) = .int 4 ∧
    getParallelExecutionLimit none = .int 1 ∧
    getParallelExecutionLimit (some (.str "abc")) = .nan ∧
    JNum.nan ≠ .int 1 ∧
    jnTypeof .nan = "number" :=
  ⟨rfl, by decide, rfl, by decide, by decide, rfl⟩

/-- The parsed random-generator seed: `'time'`, a number, or `null` (disabled). -/
inductive RngSeed where
  | time
  | num (n : Int)
  | noSeed
deriving DecidableEq

/-- Models `Configurations.getRandomGeneratorSeed` on the resolved
`test.randomGeneratorSeed` value (`none` = `undefined`, which takes the
default `'time'`): `'time'` passes through, the empty string disables
(`null`), otherwise `Number(value)` is returned unless it is `NaN`,
in which case the seed is disabled (`null`, modelled as `noSeed`). -/
def getRandomGeneratorSeed (raw : Option JVal) : RngSeed :=
  let val := raw.getD (JVal.str "time")
  if strictEqStr val "time" then .time
  else if strictEqStr val "" then .noSeed
  else
    match jsToNumber val with
    | .int n => .num n
    | .nan => .noSeed

/-- C8: random-seed parsing: `'time'` maps to `'time'`; the empty string maps
to `null`; the numeric string `'42'` parses to the number 42; a non-parseable
value such as `'abc'` maps to `null`; and the default when unset is `'time'`. -/
theorem c8_random_seed :
    getRandomGeneratorSeed (some (.str "time")) = .time ∧
    getRandomGeneratorSeed (some (.str "")) = .noSeed ∧
    getRandomGeneratorSeed (some (.str "42")) = .num 42 ∧
    getRandomGeneratorSeed (some (.str "abc")) = .noSeed ∧
    getRandomGeneratorSeed none = .time :=
  ⟨by decide, by decide, by decide, by decide, by decide⟩

/-! ### Debug configuration template resolution -/

/-- Does string `s` start with `p`? (models `String.prototype.startsWith`). -/
def strStartsWith (s p : String) : Bool :=
  p.data.isPrefixOf s.data

/-- The own enumerable entries of a value, as copied by `Object.assign`:
the fields of an object, the indexed elements of an array, nothing for
primitives (the call sites below only reach this with objects or arrays). -/
def entriesOf : JVal → List (String × JVal)
  | .obj fs => fs
  | .arr xs => xs.enum.map (fun p => (toString p.1, p.2))
  | _ => []

/-- Assign one key on an object's field list: replace the first existing
binding in place, else append (JavaScript property-set semantics). -/
def setField (fs : List (String × JVal)) (k : String) (v : JVal) : List (String × JVal) :=
  match fs with
  | [] => [(k, v)]
  | p :: rest => if p.1 = k then (k, v) :: rest else p :: setField rest k v

/-- `Object.assign(target, source)` on field lists: source entries are
assigned onto the target left to right. -/
def objAssign (a b : List (String × JVal)) : List (String × JVal) :=
  b.foldl (fun acc p => setField acc p.1 p.2) a

/-- Is the value a non-null object (`typeof v === "object" && v !== null`)? -/
def isNonNullObject (v : JVal) : Bool :=
  jTypeof v == "object" && !isNullVal v

/-- The minimal base template `{name, request: 'launch', type: 'cppdbg'}`. -/
def baseDebugTemplate : List (String × JVal) :=
  [("name", .str "$\x7blabel\x7d ($\x7bsuiteLabel\x7d)"),
   ("request", .str "launch"),
   ("type", .str "cppdbg")]

/-- The placeholder fields merged onto a matching launch.json entry. -/
def launchJsonAssign : List (String × JVal) :=
  [("name", .str "$\x7blabel\x7d ($\x7bsuiteLabel\x7d)"),
   ("program", .str "$\x7bexec\x7d"),
   ("target", .str "$\x7bexec\x7d"),
   ("arguments", .str "$\x7bargsStr\x7d"),
   ("args", .str "$\x7bargs\x7d"),
   ("cwd", .str "$\x7bcwd\x7d"),
   ("env", .str "$\x7benvObj\x7d")]

/-- Template fields for the vadimcn.vscode-lldb extension. -/
def vscodeLldbAssign : List (String × JVal) :=
  [("type", .str "cppdbg"),
   ("MIMode", .str "lldb"),
   ("program", .str "$\x7bexec\x7d"),
   ("args", .str "$\x7bargs\x7d"),
   ("cwd", .str "$\x7bcwd\x7d"),
   ("env", .str "$\x7benvObj\x7d")]

/-- Template fields for the webfreak.debug extension. -/
def webfreakAssign : List (String × JVal) :=
  [("type", .str "gdb"),
   ("target", .str "$\x7bexec\x7d"),
   ("arguments", .str "$\x7bargsStr\x7d"),
   ("cwd", .str "$\x7bcwd\x7d"),
   ("env", .str "$\x7benvObj\x7d"),
   ("valuesFormatting", .str "prettyPrinters")]

/-- The darwin specialization of the webfreak.debug template. -/
def webfreakDarwinAssign : List (String × JVal) :=
  [("type", .str "lldb-mi"),
   ("lldbmipath", .str "/Applications/Xcode.app/Contents/Developer/usr/bin/lldb-mi")]

/-- Template fields for the ms-vscode.cpptools extension. -/
def cpptoolsAssign : List (String × JVal) :=
  [("type", .str "cppvsdbg"),
   ("linux", .obj [("type", .str "cppdbg"), ("MIMode", .str "gdb")]),
   ("osx", .obj [("type", .str "cppdbg"), ("MIMode", .str "lldb")]),
   ("windows", .obj [("type", .str "cppvsdbg")]),
   ("program", .str "$\x7bexec\x7d"),
   ("args", .str "$\x7bargs\x7d"),
   ("cwd", .str "$\x7bcwd\x7d"),
   ("env", .str "$\x7benvObj\x7d")]

/-- The configuration error thrown when no debug extension is installed and
no template is configured. -/
def debugErrorMsg : String :=
  "For debugging copper.debug.configTemplate should be set: https://github.com/matepek/vscode-catch2-test-adapter"

/-- The extension-probing tail of `getDebugConfigurationTemplate`: the first
installed of the three known debug extensions determines a hardcoded template
(with the darwin specialization for webfreak.debug); none installed is a
configuration error. -/
def extensionTemplate (lldbInstalled webfreakInstalled cpptoolsInstalled : Bool)
    (platform : String) : Except String JVal :=
  if lldbInstalled then .ok (.obj (objAssign baseDebugTemplate vscodeLldbAssign))
  else if webfreakInstalled then
    .ok (.obj (if platform = "darwin" then
      objAssign (objAssign baseDebugTemplate webfreakAssign) webfreakDarwinAssign
    else objAssign baseDebugTemplate webfreakAssign))
  else if cpptoolsInstalled then .ok (.obj (objAssign baseDebugTemplate cpptoolsAssign))
  else .error debugErrorMsg

mutual

/-- JavaScript string conversion of a value (a plain object converts to
"[object Object]"). -/
def jsToString : JVal → String
  | .null => "null"
  | .bool b => cond b "true" "false"
  | .num n => toString n
  | .str s => s
  | .arr xs => jsArrToString xs
  | .obj _ => "[object Object]"

/-- JavaScript string conversion of an array's element list:
`Array.prototype.toString` joins the elements with commas, with `null` and
`undefined` elements contributing the empty string. -/
def jsArrToString : List JVal → String
  | [] => ""
  | [.null] => ""
  | [v] => jsToString v
  | .null :: rest => "," ++ jsArrToString rest
  | v :: rest => jsToString v ++ "," ++ jsArrToString rest

end

/-- Models JavaScript loose equality `v == lit` against a string literal:
a string compares directly; a number or boolean compares numerically after
the literal is converted with ToNumber; `null` (and `undefined`) are not
loosely equal to any string; an object or array is converted with ToPrimitive
(no custom `valueOf` here, so `toString` applies: an array joins its elements
with commas, a plain object gives "[object Object]") and the resulting string
is compared. -/
def jsLooseEqStr (v : JVal) (lit : String) : Bool :=
  match v with
  | .null => false
  | .bool b =>
    match parseJsNumber lit with
    | .int m => decide (m = (if b then 1 else 0))
    | .nan => false
  | .num n =>
    match parseJsNumber lit with
    | .int m => decide (m = n)
    | .nan => false
  | .str s => s == lit
  | .arr xs => jsToString (.arr xs) == lit
  | .obj fs => jsToString (.obj fs) == lit

/-- Does a launch.json entry match?  The source tests the `request` field
with LOOSE equality (`request == 'launch'`), under which non-string values
that coerce to the string `'launch'` (such as the array `['launch']`) also
match; the `type` field must be a string starting with cpp/lldb/gdb. -/
def launchConfigMatches (v : JVal) : Bool :=
  (match jGetField v "request" with
   | some r => jsLooseEqStr r "launch"
   | none => false) &&
  (match jGetField v "type" with
   | some (.str t) => strStartsWith t "cpp" || strStartsWith t "lldb" || strStartsWith t "gdb"
   | _ => false)

/-- The scan loop over the launch.json entries: reading `.request` on a
`null` entry throws a TypeError, otherwise the first matching entry wins. -/
def findLaunchConfig : List JVal → Except String (Option JVal)
  | [] => .ok none
  | v :: rest =>
    if isNullVal v then .error "TypeError: cannot read properties of null"
    else if launchConfigMatches v then .ok (some v)
    else findLaunchConfig rest

/-- The launch.json consultation of `getDebugConfigurationTemplate`: it only
happens when the resolved template setting is exactly `null`, and only when
the `launch.configurations` value is a non-empty array. -/
def launchScan (templateFromConfig : JVal) (launchConfigs : Option JVal) :
    Except String (Option JVal) :=
  if isNullVal templateFromConfig then
    match launchConfigs with
    | some (.arr xs) => if 0 < xs.length then findLaunchConfig xs else .ok none
    | _ => .ok none
  else .ok none

/-- Models `Configurations.getDebugConfigurationTemplate`.  `templateRaw` is
the resolved `debug.configTemplate` value (default `null`), `launchConfigs`
the workspace's `launch.configurations` value, the three Booleans the
installation state of the known debug extensions, `platform` the process
platform. -/
def getDebugConfigurationTemplate (templateRaw launchConfigs : Option JVal)
    (lldbInstalled webfreakInstalled cpptoolsInstalled : Bool) (platform : String) :
    Except String JVal :=
  let templateFromConfig := templateRaw.getD .null
  if isNonNullObject templateFromConfig then
    .ok (.obj (objAssign baseDebugTemplate (entriesOf templateFromConfig)))
  else
    match launchScan templateFromConfig launchConfigs with
    | .error e => .error e
    | .ok (some cfg) => .ok (.obj (objAssign (entriesOf cfg) launchJsonAssign))
    | .ok none => extensionTemplate lldbInstalled webfreakInstalled cpptoolsInstalled platform

/-- Does any entry of the launch array match? (false when the value is not an array). -/
def launchScanFinds : Option JVal → Bool
  | some (.arr xs) => xs.any launchConfigMatches
  | _ => false

/-- The launch array has no `null` entries (vacuously true for non-arrays);
with a `null` entry the source itself would throw a TypeError while scanning. -/
def launchWellFormed : Option JVal → Bool
  | some (.arr xs) => xs.all (fun v => !isNullVal v)
  | _ => true

/-- The first matching launch entry, when the value is an array. -/
def launchFound : Option JVal → Option JVal
  | some (.arr xs) => xs.find? launchConfigMatches
  | _ => none

/-- Lookup after a single assignment. -/
theorem lookupField_setField (fs : List (String × JVal)) (k k' : String) (v : JVal) :
    lookupField (setField fs k v) k' = if k = k' then some v else lookupField fs k' := by
  induction fs with
  | nil =>
    by_cases h : k = k' <;> simp [setField, lookupField, h]
  | cons p rest ih =>
    by_cases hpk : p.1 = k
    · by_cases hkk : k = k' <;> simp [setField, lookupField, hpk, hkk]
    · by_cases hkk : k = k'
      · subst hkk
        simp [setField, lookupField, hpk, ih]
      · simp [setField, lookupField, hpk, hkk, ih]

/-- Assigning keys different from `k` does not change the lookup of `k`. -/
theorem lookupField_objAssign_not_mem (a b : List (String × JVal)) (k : String)
    (h : ∀ p ∈ b, p.1 ≠ k) :
    lookupField (objAssign a b) k = lookupField a k := by
  induction b generalizing a with
  | nil => rfl
  | cons p rest ih =>
    have hp : p.1 ≠ k := h p (List.mem_cons_self p rest)
    have step : objAssign a (p :: rest) = objAssign (setField a p.1 p.2) rest := rfl
    rw [step, ih _ (fun q hq => h q (List.mem_cons_of_mem p hq)), lookupField_setField]
    simp [hp]

/-- `Object.assign` preserves the presence of a key of the target. -/
theorem lookupField_objAssign_isSome (a b : List (String × JVal)) (k : String)
    (h : (lookupField a k).isSome = true) :
    (lookupField (objAssign a b) k).isSome = true := by
  induction b generalizing a with
  | nil => exact h
  | cons p rest ih =>
    have step : objAssign a (p :: rest) = objAssign (setField a p.1 p.2) rest := rfl
    rw [step]
    apply ih
    rw [lookupField_setField]
    by_cases hk : p.1 = k <;> simp [hk, h]

/-- A key assigned at the head of the source and not re-assigned later ends up
with the head's value. -/
theorem lookupField_objAssign_head (a rest : List (String × JVal)) (k : String) (v : JVal)
    (h : ∀ p ∈ rest, p.1 ≠ k) :
    lookupField (objAssign a ((k, v) :: rest)) k = some v := by
  have step : objAssign a ((k, v) :: rest) = objAssign (setField a k v) rest := rfl
  rw [step, lookupField_objAssign_not_mem _ _ _ h, lookupField_setField]
  simp

/-- `find?` succeeds exactly when `any` holds. -/
theorem find?_isSome_eq_any (p : JVal → Bool) (xs : List JVal) :
    (xs.find? p).isSome = xs.any p := by
  induction xs with
  | nil => rfl
  | cons v rest ih =>
    by_cases hv : p v = true <;> simp [List.find?_cons, List.any_cons, hv, ih]

/-- Without `null` entries the scan loop returns the first match. -/
theorem findLaunchConfig_eq_find? (xs : List JVal)
    (h : xs.all (fun v => !isNullVal v) = true) :
    findLaunchConfig xs = .ok (xs.find? launchConfigMatches) := by
  induction xs with
  | nil => rfl
  | cons v rest ih =>
    simp only [List.all_cons, Bool.and_eq_true, Bool.not_eq_true'] at h
    obtain ⟨hv, hrest⟩ := h
    simp only [findLaunchConfig, hv, Bool.false_eq_true, if_false, List.find?_cons]
    by_cases hm : launchConfigMatches v = true
    · simp [hm]
    · simp only [Bool.not_eq_true] at hm
      simp [hm, ih (by simpa [List.all_eq_true] using hrest)]

/-- The launch.json consultation, under well-formed launch configurations:
it never throws, and yields the first match exactly when the template setting
is `null`. -/
theorem launchScan_eq (tfc : JVal) (lc : Option JVal)
    (hwf : launchWellFormed lc = true) :
    launchScan tfc lc = .ok (if isNullVal tfc then launchFound lc else none) := by
  by_cases hn : isNullVal tfc = true
  · simp only [launchScan, hn, if_true]
    match lc with
    | none => rfl
    | some (.null) => rfl
    | some (.bool b) => rfl
    | some (.num n) => rfl
    | some (.str s) => rfl
    | some (.obj fs) => rfl
    | some (.arr xs) =>
      simp only [launchWellFormed] at hwf
      cases xs with
      | nil => rfl
      | cons v rest =>
        show (if 0 < (v :: rest).length then findLaunchConfig (v :: rest) else Except.ok none) =
          Except.ok (launchFound (some (.arr (v :: rest))))
        rw [if_pos (by simp), findLaunchConfig_eq_find? _ hwf]
        rfl
  · simp only [Bool.not_eq_true] at hn
    simp [launchScan, hn]

/-- A matching launch entry carries `request` and `type` fields. -/
theorem launchConfigMatches_fields (cfg : JVal) (h : launchConfigMatches cfg = true) :
    (jGetField cfg "request").isSome = true ∧ (jGetField cfg "type").isSome = true := by
  simp only [launchConfigMatches, Bool.and_eq_true] at h
  obtain ⟨h1, h2⟩ := h
  constructor
  · cases hq : jGetField cfg "request" with
    | none => rw [hq] at h1; exact Bool.noConfusion h1
    | some v => rfl
  · cases hq : jGetField cfg "type" with
    | none => rw [hq] at h2; exact Bool.noConfusion h2
    | some v => rfl

/-- The extension-probing tail throws exactly when none of the three
extensions is installed. -/
theorem extensionTemplate_error_iff (a b c : Bool) (p : String) :
    (∃ e, extensionTemplate a b c p = .error e) ↔ (a = false ∧ b = false ∧ c = false) := by
  cases a <;> cases b <;> cases c <;> simp [extensionTemplate]

/-- Every template produced by the extension-probing tail has `name`,
`request` and `type` fields. -/
theorem extensionTemplate_ok_fields (a b c : Bool) (p : String) (t : JVal)
    (h : extensionTemplate a b c p = .ok t) :
    (jGetField t "name").isSome = true ∧ (jGetField t "request").isSome = true ∧
      (jGetField t "type").isSome = true := by
  cases a
  · cases b
    · cases c
      · exact absurd h (by simp [extensionTemplate])
      · have h2 : Except.ok (JVal.obj (objAssign baseDebugTemplate cpptoolsAssign)) =
            Except.ok t := h
        injection h2 with h3
        subst h3
        decide
    · have h2 : Except.ok (JVal.obj (if p = "darwin" then
            objAssign (objAssign baseDebugTemplate webfreakAssign) webfreakDarwinAssign
          else objAssign baseDebugTemplate webfreakAssign)) = Except.ok t := h
      injection h2 with h3
      subst h3
      by_cases hd : p = "darwin"
      · rw [if_pos hd]
        decide
      · rw [if_neg hd]
        decide
  · have h2 : Except.ok (JVal.obj (objAssign baseDebugTemplate vscodeLldbAssign)) =
        Except.ok t := h
    injection h2 with h3
    subst h3
    decide

/-- The first match exists exactly when some entry matches. -/
theorem launchFound_isSome_eq (lc : Option JVal) :
    (launchFound lc).isSome = launchScanFinds lc := by
  cases lc with
  | none => rfl
  | some v => cases v <;> first | rfl | exact find?_isSome_eq_any _ _

/-- The found entry matches. -/
theorem launchFound_matches (lc : Option JVal) (cfg : JVal) (h : launchFound lc = some cfg) :
    launchConfigMatches cfg = true := by
  cases lc with
  | none => exact Option.noConfusion h
  | some v =>
    cases v <;> try exact Option.noConfusion h
    exact List.find?_some h

/-- C9 (amended): `getDebugConfigurationTemplate` throws the configuration
error (directing the user to set the template explicitly) exactly when the
resolved `debug.configTemplate` setting is not a non-null object, the
launch.json consultation finds nothing — which is the case whenever the
setting is not null (including `'extensionOnly'` and any other non-object
value: the launch-configuration scan runs ONLY when the setting is exactly
null/unset) or no launch configuration with request loosely equal
(JavaScript `==`) to `'launch'` and a string type starting with cpp/lldb/gdb
exists — and none of the three known debug
extensions is installed; in every other case it returns a template containing
at least `name`, `request` and `type` fields.  (Launch arrays with `null`
entries are excluded: on those the source throws a TypeError while scanning.) -/
theorem c9_debug_template (templateRaw launchConfigs : Option JVal)
    (lldbInstalled webfreakInstalled cpptoolsInstalled : Bool) (platform : String)
    (hwf : launchWellFormed launchConfigs = true) :
    ((∃ e, getDebugConfigurationTemplate templateRaw launchConfigs lldbInstalled
        webfreakInstalled cpptoolsInstalled platform = .error e) ↔
      (isNonNullObject (templateRaw.getD .null) = false ∧
        (isNullVal (templateRaw.getD .null) = false ∨ launchScanFinds launchConfigs = false) ∧
        lldbInstalled = false ∧ webfreakInstalled = false ∧ cpptoolsInstalled = false)) ∧
    (∀ t, getDebugConfigurationTemplate templateRaw launchConfigs lldbInstalled
        webfreakInstalled cpptoolsInstalled platform = .ok t →
      (jGetField t "name").isSome = true ∧ (jGetField t "request").isSome = true ∧
        (jGetField t "type").isSome = true) := by
  by_cases h1 : isNonNullObject (templateRaw.getD .null) = true
  · have hred : getDebugConfigurationTemplate templateRaw launchConfigs lldbInstalled
        webfreakInstalled cpptoolsInstalled platform =
        .ok (.obj (objAssign baseDebugTemplate (entriesOf (templateRaw.getD .null)))) := by
      simp only [getDebugConfigurationTemplate]
      rw [if_pos h1]
    constructor
    · rw [hred]
      simp [h1]
    · intro t ht
      rw [hred] at ht
      injection ht with h2
      subst h2
      exact ⟨lookupField_objAssign_isSome _ _ _ (by decide),
        lookupField_objAssign_isSome _ _ _ (by decide),
        lookupField_objAssign_isSome _ _ _ (by decide)⟩
  · have h1f : isNonNullObject (templateRaw.getD .null) = false := by
      cases hh : isNonNullObject (templateRaw.getD .null)
      · rfl
      · exact absurd hh h1
    have hscan := launchScan_eq (templateRaw.getD .null) launchConfigs hwf
    by_cases hn : isNullVal (templateRaw.getD .null) = true
    · cases hf : launchFound launchConfigs with
      | some cfg =>
        have hok : launchScan (templateRaw.getD .null) launchConfigs = .ok (some cfg) := by
          rw [hscan, if_pos hn, hf]
        have hred : getDebugConfigurationTemplate templateRaw launchConfigs lldbInstalled
            webfreakInstalled cpptoolsInstalled platform =
            .ok (.obj (objAssign (entriesOf cfg) launchJsonAssign)) := by
          simp only [getDebugConfigurationTemplate]
          rw [if_neg (by simp [h1f]), hok]
        have hfinds : launchScanFinds launchConfigs = true := by
          rw [← launchFound_isSome_eq, hf]
          rfl
        constructor
        · rw [hred]
          simp [hn, hfinds]
        · intro t ht
          rw [hred] at ht
          injection ht with h2
          subst h2
          have hm := launchFound_matches _ _ hf
          obtain ⟨hreq, hty⟩ := launchConfigMatches_fields _ hm
          cases cfg with
          | obj fs =>
            refine ⟨?_, ?_, ?_⟩
            · show (lookupField (objAssign fs launchJsonAssign) "name").isSome = true
              unfold launchJsonAssign
              rw [lookupField_objAssign_head fs _ "name" _ (by decide)]
              rfl
            · show (lookupField (objAssign fs launchJsonAssign) "request").isSome = true
              rw [lookupField_objAssign_not_mem fs launchJsonAssign "request" (by decide)]
              exact hreq
            · show (lookupField (objAssign fs launchJsonAssign) "type").isSome = true
              rw [lookupField_objAssign_not_mem fs launchJsonAssign "type" (by decide)]
              exact hty
          | null => exact Bool.noConfusion hreq
          | bool b => exact Bool.noConfusion hreq
          | num n => exact Bool.noConfusion hreq
          | str s => exact Bool.noConfusion hreq
          | arr es => exact Bool.noConfusion hreq
      | none =>
        have hok : launchScan (templateRaw.getD .null) launchConfigs = .ok none := by
          rw [hscan, if_pos hn, hf]
        have hred : getDebugConfigurationTemplate templateRaw launchConfigs lldbInstalled
            webfreakInstalled cpptoolsInstalled platform =
            extensionTemplate lldbInstalled webfreakInstalled cpptoolsInstalled platform := by
          simp only [getDebugConfigurationTemplate]
          rw [if_neg (by simp [h1f]), hok]
        have hfinds : launchScanFinds launchConfigs = false := by
          rw [← launchFound_isSome_eq, hf]
          rfl
        constructor
        · rw [hred, extensionTemplate_error_iff]
          simp [h1f, hn, hfinds]
        · intro t ht
          rw [hred] at ht
          exact extensionTemplate_ok_fields _ _ _ _ _ ht
    · have hnf : isNullVal (templateRaw.getD .null) = false := by
        cases hh : isNullVal (templateRaw.getD .null)
        · rfl
        · exact absurd hh hn
      have hok : launchScan (templateRaw.getD .null) launchConfigs = .ok none := by
        rw [hscan, if_neg (by simp [hnf])]
      have hred : getDebugConfigurationTemplate templateRaw launchConfigs lldbInstalled
          webfreakInstalled cpptoolsInstalled platform =
          extensionTemplate lldbInstalled webfreakInstalled cpptoolsInstalled platform := by
        simp only [getDebugConfigurationTemplate]
        rw [if_neg (by simp [h1f]), hok]
      constructor
      · rw [hred, extensionTemplate_error_iff]
        simp [h1f, hnf]
      · intro t ht
        rw [hred] at ht
        exact extensionTemplate_ok_fields _ _ _ _ _ ht

/-- Witness for `c9_debug_template`: unset template, one matching launch.json
entry whose `request` is the array `['launch']` (loosely equal to `'launch'`
via ToPrimitive coercion), no extensions installed. -/
theorem c9_debug_template_witness :
    launchWellFormed (some (.arr [.obj [("request", .arr [.str "launch"]), ("type", .str "lldb")]])) =
      true ∧
    (((∃ e, getDebugConfigurationTemplate none
        (some (.arr [.obj [("request", .arr [.str "launch"]), ("type", .str "lldb")]]))
        false false false "linux" = .error e) ↔
      (isNonNullObject ((none : Option JVal).getD .null) = false ∧
        (isNullVal ((none : Option JVal).getD .null) = false ∨
          launchScanFinds
            (some (.arr [.obj [("request", .arr [.str "launch"]), ("type", .str "lldb")]])) = false) ∧
        false = false ∧ false = false ∧ false = false)) ∧
    (∀ t, getDebugConfigurationTemplate none
        (some (.arr [.obj [("request", .arr [.str "launch"]), ("type", .str "lldb")]]))
        false false false "linux" = .ok t →
      (jGetField t "name").isSome = true ∧ (jGetField t "request").isSome = true ∧
        (jGetField t "type").isSome = true)) :=
  ⟨rfl,
    c9_debug_template none
      (some (.arr [.obj [("request", .arr [.str "launch"]), ("type", .str "lldb")]]))
      false false false "linux" rfl⟩

/-- C9 counterexample: with the setting resolved to the non-object, non-null,
non-`'extensionOnly'` string `'foo'`, a matching launch configuration present,
and no debug extension installed, the source still throws: the launch.json
scan runs only when the setting is exactly null, so the matching entry is
never consulted.  The claim's condition ("...no launch configuration matches
(or the setting is 'extensionOnly'), and none of the three extensions is
installed") is false here, yet the call throws. -/
theorem c9_scan_skipped_counterexample :
    getDebugConfigurationTemplate (some (.str "foo"))
        (some (.arr [.obj [("request", .str "launch"), ("type", .str "cppdbg")]]))
        false false false "linux" = .error debugErrorMsg ∧
    launchConfigMatches (.obj [("request", .str "launch"), ("type", .str "cppdbg")]) = true ∧
    isNonNullObject (.str "foo") = false ∧
    strictEqStr (.str "foo") "extensionOnly" = false :=
  ⟨rfl, by decide, rfl, by decide⟩
